import Mathlib

/-!
Verification of the command-line GStreamer video player (`src/main.cpp`).

The program is an orchestration shim around an external `playbin` pipeline:
a Command Interpreter thread reads line commands from standard input, an
Event Bridge (`handleBusMessage`) dispatches asynchronous bus notifications,
a Track Inspector (`showStreamDetails` / `listTracks`) logs discovered
tracks after a fixed delay, and `main` wires everything together.

This file gives a shallow embedding of those routines and proves the
specification's testable properties about them.  External GStreamer calls
(`g_object_set`, `g_main_loop_quit`, ...) are modelled as emitted events;
the control flow and the parsing logic are translated from the source.
-/

namespace VideoPlayer

/-! ## Model of `std::stoi`

`handleUserInput` parses track indices with `std::stoi(cmd.substr(1))`.
`std::stoi` (via `strtol`): skips leading whitespace, consumes an optional
sign and a maximal run of decimal digits, throws `invalid_argument` when no
digits were consumed and `out_of_range` when the value does not fit in
`int` (32-bit signed).  Both exceptions are caught by the `catch (...)` in
the source, so the model collapses them to `none`. -/

/-- The largest value of a C++ 32-bit signed `int`. -/
def intMax : Int := 2147483647

/-- The smallest value of a C++ 32-bit signed `int`. -/
def intMin : Int := -2147483648

/-- Characters treated as whitespace by `isspace` in the default C locale
(space, tab, newline, vertical tab, form feed, carriage return). -/
def isCppSpace (c : Char) : Bool :=
  c = ' ' || c = '\t' || c = '\n' || c = Char.ofNat 11 || c = Char.ofNat 12 || c = '\r'

/-- Numeric value of a run of decimal digit characters. -/
def digitsVal (ds : List Char) : Nat :=
  ds.foldl (fun acc c => acc * 10 + (c.toNat - 48)) 0

/-- The digit-run phase of `std::stoi`: consume a maximal run of decimal
digits after the optional sign, fail when it is empty (`invalid_argument`)
or when the signed value falls outside `int` range (`out_of_range`). -/
def stoiMag (sign : Int) (s2 : List Char) : Option Int :=
  let ds := s2.takeWhile Char.isDigit
  if ds = [] then none
  else
    let v : Int := sign * (digitsVal ds : Int)
    if v < intMin ∨ intMax < v then none else some v

/-- Model of `std::stoi` on the character list of the argument string.
Returns `none` where the C++ function throws. -/
def stoi (s : List Char) : Option Int :=
  let s1 := s.dropWhile isCppSpace
  if s1.head? = some '-' then stoiMag (-1) s1.tail
  else if s1.head? = some '+' then stoiMag 1 s1.tail
  else stoiMag 1 s1

/-! ## The Command Interpreter (`MyVideoPlayer::handleUserInput`)

The thread loops `while (!m_quit && std::getline(std::cin, cmd))`.  Per
line: `"q"` logs "Shutting down...", quits the main loop and breaks; a line
of length > 1 starting with 'a' or 's' parses `stoi(cmd.substr(1))` and
dispatches `switchAudio`/`switchSubtitle` (each a `g_object_set` on
`current-audio`/`current-text`), printing "Invalid track number" when the
parse throws; every other line falls through silently. -/

/-- What `handleUserInput` does with a single input line. -/
inductive Action where
  | quitLoop
  | audio (n : Int)
  | subtitle (n : Int)
  | invalidMsg
  | silent
deriving DecidableEq

/-- Observable effects of the interpreter and of the player at large. -/
inductive Event where
  | logShutdown
  | mainLoopQuit
  | setAudio (n : Int)
  | setSubtitle (n : Int)
  | logInvalid
deriving DecidableEq

/-- Dispatch of one input line, translated from the body of the `while`
loop in `handleUserInput`. -/
def interpretLine (cmd : List Char) : Action :=
  if cmd = ['q'] then
    .quitLoop
  else if 1 < cmd.length ∧ (cmd.head? = some 'a' ∨ cmd.head? = some 's') then
    match stoi cmd.tail with
    | some n => if cmd.head? = some 'a' then .audio n else .subtitle n
    | none => .invalidMsg
  else
    .silent

/-- Events emitted while processing one line. -/
def lineEvents (cmd : List Char) : List Event :=
  match interpretLine cmd with
  | .quitLoop => [.logShutdown, .mainLoopQuit]
  | .audio n => [.setAudio n]
  | .subtitle n => [.setSubtitle n]
  | .invalidMsg => [.logInvalid]
  | .silent => []

/-- Whether the line makes the interpreter `break` out of its read loop. -/
def breaksLoop (cmd : List Char) : Bool :=
  match interpretLine cmd with
  | .quitLoop => true
  | _ => false

/-- The interpreter's read loop over a list of input lines: processes lines
in order, stopping after the first line that breaks the loop. -/
def runInput : List (List Char) → List Event
  | [] => []
  | cmd :: rest =>
    if breaksLoop cmd then lineEvents cmd
    else lineEvents cmd ++ runInput rest

/-- The spec's documented command pattern `[a|s]<digits>`: length > 1,
first character 'a' or 's', remainder all decimal digits. -/
def specTrackPattern (cmd : List Char) : Prop :=
  1 < cmd.length ∧ (cmd.head? = some 'a' ∨ cmd.head? = some 's') ∧
    ∀ d ∈ cmd.tail, d.isDigit

instance (cmd : List Char) : Decidable (specTrackPattern cmd) := by
  unfold specTrackPattern; infer_instance

/-! ## The Event Bridge (`MyVideoPlayer::handleBusMessage`)

The bus watch dispatches on `GST_MESSAGE_TYPE(msg)`:
`GST_MESSAGE_ERROR` parses the error (the message and debug strings may
each be null), logs them, quits the main loop; `GST_MESSAGE_EOS` logs and
quits; `GST_MESSAGE_STATE_CHANGED` logs the old and current state names
only when `GST_MESSAGE_SRC(msg)` is the pipeline itself; everything else
is ignored.  The handler always returns `TRUE`. -/

/-- GStreamer element lifecycle states, as reported in state-changed
messages (`GstState`). -/
inductive GstState where
  | voidPending
  | nullState
  | ready
  | paused
  | playing
deriving DecidableEq

/-- `gst_element_state_get_name`. -/
def stateGetName : GstState → String
  | .voidPending => "VOID_PENDING"
  | .nullState => "NULL"
  | .ready => "READY"
  | .paused => "PAUSED"
  | .playing => "PLAYING"

/-- A bus notification as observed by `handleBusMessage`: the message kind
together with the fields the handler reads.  `srcIsPipeline` records
whether `GST_MESSAGE_SRC(msg) == GST_OBJECT(m_pipeline)`. -/
inductive BusMessage where
  | error (errMessage : Option String) (debug : Option String)
  | eos
  | stateChanged (srcIsPipeline : Bool) (old current pending : GstState)
  | other
deriving DecidableEq

/-- A log line written by the Event Bridge. -/
inductive BusLog where
  | errorLog (message : String) (debug : String)
  | eosLog
  | stateLog (old current : String)
deriving DecidableEq

/-- Result of one `handleBusMessage` call: what it logged, whether it
called `g_main_loop_quit`, and its return value. -/
structure BusResult where
  logs : List BusLog
  quitRequested : Bool
  ret : Bool
deriving DecidableEq

/-- `MyVideoPlayer::handleBusMessage`, translated case by case from the
`switch` statement. -/
def handleBusMessage : BusMessage → BusResult
  | .error errMessage debug =>
    { logs := [.errorLog (errMessage.getD "Unknown error") (debug.getD "No debug info")]
      quitRequested := true
      ret := true }
  | .eos =>
    { logs := [.eosLog], quitRequested := true, ret := true }
  | .stateChanged srcIsPipeline old current _pending =>
    { logs :=
        if srcIsPipeline then [.stateLog (stateGetName old) (stateGetName current)] else []
      quitRequested := false
      ret := true }
  | .other =>
    { logs := [], quitRequested := false, ret := true }

/-- The main event loop (`g_main_loop_run`) dispatching a sequence of bus
messages: it delivers messages to the Event Bridge in order and returns
once a handler calls `g_main_loop_quit`. -/
def eventLoopRun : List BusMessage → List BusLog
  | [] => []
  | m :: rest =>
    let r := handleBusMessage m
    if r.quitRequested then r.logs else r.logs ++ eventLoopRun rest

/-! ## The Lifecycle Coordinator (`main`, `setupPlayer`, `startPlayback`)

`main` exits 1 when `argc < 2` (before constructing the player); otherwise
it constructs a `MyVideoPlayer` and calls `setupPlayer`, returning 2 when
that fails (playbin could not be created) — the destructor still runs
`cleanup` — and otherwise runs `startPlayback` and returns 0.
`startPlayback` sets the pipeline to PLAYING, detaches the Track Inspector
thread, spawns the Command Interpreter thread, blocks in
`g_main_loop_run`, and joins the interpreter thread afterwards. -/

/-- Coarse-grained actions `main` performs, in program order. -/
inductive MainAction where
  | usageError
  | constructPlayer
  | gstInit
  | createPipelineOk
  | createPipelineFail
  | logFatal
  | setStatePlaying
  | spawnTrackInspector
  | spawnCommandInterpreter
  | runEventLoop
  | joinCommandInterpreter
  | cleanupRun
deriving DecidableEq

/-- `MyVideoPlayer::setupPlayer`: `gst_init`, then
`gst_element_factory_make("playbin", ...)`; on a null result it logs a
fatal error and returns false, otherwise it configures the pipeline,
installs the bus watch, creates the main loop and returns true.
`playbinOk` stands for whether the factory call succeeds. -/
def setupPlayer (playbinOk : Bool) : List MainAction × Bool :=
  if playbinOk then ([.gstInit, .createPipelineOk], true)
  else ([.gstInit, .createPipelineFail, .logFatal], false)

/-- `MyVideoPlayer::startPlayback` when the pipeline exists: transition to
PLAYING, detach the inspector thread, spawn the input thread, run the
event loop over the incoming bus messages, then join the input thread. -/
def startPlayback (msgs : List BusMessage) : List MainAction × List BusLog :=
  ([.setStatePlaying, .spawnTrackInspector, .spawnCommandInterpreter,
      .runEventLoop, .joinCommandInterpreter],
    eventLoopRun msgs)

/-- Outcome of one run of `main`: the actions performed, the Event Bridge
log, and the process exit code. -/
structure RunResult where
  actions : List MainAction
  busLogs : List BusLog
  exitCode : Nat
deriving DecidableEq

/-- `main`, parameterised by `argc`, by whether playbin creation succeeds,
and by the bus messages the external engine posts while playing. -/
def mainRun (argc : Nat) (playbinOk : Bool) (msgs : List BusMessage) : RunResult :=
  if argc < 2 then
    { actions := [.usageError], busLogs := [], exitCode := 1 }
  else
    let setup := setupPlayer playbinOk
    if setup.2 then
      let play := startPlayback msgs
      { actions := .constructPlayer :: setup.1 ++ play.1 ++ [.cleanupRun]
        busLogs := play.2
        exitCode := 0 }
    else
      { actions := .constructPlayer :: setup.1 ++ [.cleanupRun]
        busLogs := []
        exitCode := 2 }

/-! ## Teardown (`MyVideoPlayer::cleanup`)

`cleanup` is called by the destructor.  If `m_pipeline` is non-null it sets
the state to NULL, unrefs the pipeline and nulls the member; if
`m_mainloop` is non-null it quits the loop when still running, unrefs it
and nulls the member.  The unref counters below record how many times each
resource has been released so far, so double release is observable. -/

/-- The resource-owning members of `MyVideoPlayer`, plus release counters
(not in the source; they count the `gst_object_unref` /
`g_main_loop_unref` calls made so far so that duplicate release is a
provable non-event). -/
structure PlayerRes where
  pipelineAlive : Bool
  mainloopAlive : Bool
  mainloopRunning : Bool
  pipelineUnrefs : Nat
  mainloopUnrefs : Nat
deriving DecidableEq

/-- `MyVideoPlayer::cleanup`, translated guard by guard. -/
def cleanup (s : PlayerRes) : PlayerRes :=
  let s1 :=
    if s.pipelineAlive then
      { s with pipelineAlive := false, pipelineUnrefs := s.pipelineUnrefs + 1 }
    else s
  if s1.mainloopAlive then
    { s1 with
        mainloopAlive := false
        mainloopRunning := false
        mainloopUnrefs := s1.mainloopUnrefs + 1 }
  else s1

/-! ## The Track Inspector (`showStreamDetails`, `listTracks`)

The detached thread sleeps 3 seconds, returns silently when `m_pipeline`
is null, otherwise reads the `n-video`/`n-audio`/`n-text` properties (C
`gint`s), logs the three counts, and runs `listTracks` for the audio and
subtitle kinds.  `listTracks` iterates `i` from 0 to `count - 1`, emits
the `get-audio-tags`/`get-text-tags` signal, and logs the track's language
only when a tag list came back and it contains a language code. -/

/-- The warm-up delay, in seconds, slept before querying stream details. -/
def discoveryDelaySeconds : Nat := 3

/-- A log line written by the Track Inspector. -/
inductive TrackLog where
  | videoCount (n : Int)
  | audioCount (n : Int)
  | subtitleCount (n : Int)
  | trackLang (kind : String) (index : Int) (lang : String)
deriving DecidableEq

/-- `MyVideoPlayer::listTracks`: `tags i = none` models a null
`GstTagList*`, `some none` a tag list without a language code, and
`some (some l)` a tag list with language `l`. -/
def listTracks (kind : String) (count : Int) (tags : Int → Option (Option String)) :
    List TrackLog :=
  (List.range count.toNat).filterMap fun (i : Nat) =>
    match tags ((i : Nat) : Int) with
    | some (some lang) => some (.trackLang kind ((i : Nat) : Int) lang)
    | _ => none

/-- `MyVideoPlayer::showStreamDetails` after the sleep: the `tags`
arguments model the per-index results of the `get-audio-tags` and
`get-text-tags` signals. -/
def showStreamDetails (pipelineAlive : Bool) (nVideo nAudio nText : Int)
    (audioTags textTags : Int → Option (Option String)) : List TrackLog :=
  if !pipelineAlive then []
  else
    [.videoCount nVideo, .audioCount nAudio, .subtitleCount nText]
      ++ listTracks "Audio" nAudio audioTags
      ++ listTracks "Subtitle" nText textTags

/-! ## Parsing lemmas -/

/-- A decimal digit is not one of the C whitespace characters. -/
theorem isCppSpace_eq_false_of_isDigit {d : Char} (h : d.isDigit = true) :
    isCppSpace d = false := by
  by_contra hns
  rw [Bool.not_eq_false, isCppSpace] at hns
  simp only [Bool.or_eq_true, decide_eq_true_eq] at hns
  rcases hns with ((((h1 | h1) | h1) | h1) | h1) | h1 <;> subst h1 <;>
    exact absurd h (by decide)

/-- A digit differs from any non-digit character. -/
theorem ne_of_isDigit {d c : Char} (h : d.isDigit = true) (hc : c.isDigit = false) :
    d ≠ c := by
  intro he
  subst he
  rw [hc] at h
  exact Bool.noConfusion h

/-- `takeWhile` walks through a block that satisfies the predicate. -/
theorem takeWhile_append_of_all {p : Char → Bool} :
    ∀ (l1 l2 : List Char), (∀ a ∈ l1, p a = true) →
      (l1 ++ l2).takeWhile p = l1 ++ l2.takeWhile p := by
  intro l1
  induction l1 with
  | nil => intro l2 _; rfl
  | cons a l ih =>
    intro l2 h
    rw [List.cons_append, List.takeWhile_cons_of_pos (h a (List.mem_cons_self _ _)),
      ih l2 fun b hb => h b (List.mem_cons_of_mem a hb), List.cons_append]

/-- `takeWhile` stops immediately when the head fails the predicate. -/
theorem takeWhile_eq_nil_of_head {p : Char → Bool} (l : List Char)
    (h : ∀ d, l.head? = some d → p d = false) : l.takeWhile p = [] := by
  cases l with
  | nil => rfl
  | cons a t =>
    rw [List.takeWhile_cons_of_neg]
    simp only [h a rfl, Bool.false_eq_true, not_false_eq_true]

/-- `stoiMag` on a digit run followed by a non-digit remainder: the value
is the signed value of the run, subject to the `int` range check. -/
theorem stoiMag_digits (sign : Int) (ds t : List Char) (hne : ds ≠ [])
    (hds : ∀ d ∈ ds, d.isDigit = true)
    (ht : ∀ d, t.head? = some d → d.isDigit = false) :
    stoiMag sign (ds ++ t) =
      if sign * (digitsVal ds : Int) < intMin ∨ intMax < sign * (digitsVal ds : Int)
      then none else some (sign * digitsVal ds) := by
  rw [stoiMag, takeWhile_append_of_all ds t hds, takeWhile_eq_nil_of_head t ht,
    List.append_nil]
  rw [if_neg hne]

/-- `stoi` on a string that starts with an explicit sign character hands
the rest to the digit-run phase with the corresponding sign. -/
theorem stoi_sign_cons (c : Char) (sign : Int) (l : List Char)
    (hc : (c = '-' ∧ sign = -1) ∨ (c = '+' ∧ sign = 1)) :
    stoi (c :: l) = stoiMag sign l := by
  rcases hc with ⟨rfl, rfl⟩ | ⟨rfl, rfl⟩
  · have hdrop : ('-' :: l).dropWhile isCppSpace = '-' :: l := by
      rw [List.dropWhile_cons_of_neg]
      decide
    simp only [stoi, hdrop, List.head?_cons, List.tail_cons]
    simp
  · have hdrop : ('+' :: l).dropWhile isCppSpace = '+' :: l := by
      rw [List.dropWhile_cons_of_neg]
      decide
    simp only [stoi, hdrop, List.head?_cons, List.tail_cons]
    rw [if_neg (by decide)]
    simp

/-- `stoi` on a string that starts with a digit goes straight to the
digit-run phase with sign 1. -/
theorem stoi_digit_head (d : Char) (l : List Char) (hd : d.isDigit = true) :
    stoi (d :: l) = stoiMag 1 (d :: l) := by
  have hdrop : (d :: l).dropWhile isCppSpace = d :: l := by
    rw [List.dropWhile_cons_of_neg]
    simp only [isCppSpace_eq_false_of_isDigit hd, Bool.false_eq_true, not_false_eq_true]
  have hm : (d :: l).head? ≠ some '-' := by
    rw [List.head?_cons]
    intro hcon
    exact ne_of_isDigit hd (by decide) (Option.some.inj hcon)
  have hp : (d :: l).head? ≠ some '+' := by
    rw [List.head?_cons]
    intro hcon
    exact ne_of_isDigit hd (by decide) (Option.some.inj hcon)
  simp only [stoi, hdrop]
  rw [if_neg hm, if_neg hp]

/-- `stoi` on an optional sign, a digit run, and a non-digit remainder. -/
theorem stoi_signed (sgn ds t : List Char) (sign : Int)
    (hsgn : (sgn = [] ∧ sign = 1) ∨ (sgn = ['+'] ∧ sign = 1) ∨ (sgn = ['-'] ∧ sign = -1))
    (hne : ds ≠ []) (hds : ∀ d ∈ ds, d.isDigit = true)
    (ht : ∀ d, t.head? = some d → d.isDigit = false) :
    stoi (sgn ++ ds ++ t) =
      if sign * (digitsVal ds : Int) < intMin ∨ intMax < sign * (digitsVal ds : Int)
      then none else some (sign * digitsVal ds) := by
  have hmag := stoiMag_digits sign ds t hne hds ht
  rcases hsgn with ⟨rfl, rfl⟩ | ⟨rfl, rfl⟩ | ⟨rfl, rfl⟩
  · obtain ⟨d, ds', rfl⟩ := List.exists_cons_of_ne_nil hne
    rw [List.nil_append, List.cons_append,
      stoi_digit_head d (ds' ++ t) (hds d (List.mem_cons_self _ _)), ← List.cons_append]
    exact hmag
  · rw [List.append_assoc, List.singleton_append,
      stoi_sign_cons '+' 1 (ds ++ t) (Or.inr ⟨rfl, rfl⟩)]
    exact hmag
  · rw [List.append_assoc, List.singleton_append,
      stoi_sign_cons '-' (-1) (ds ++ t) (Or.inl ⟨rfl, rfl⟩)]
    exact hmag

/-- The value of a digit run is non-negative (as an integer). -/
theorem digitsVal_cast_nonneg (ds : List Char) : (0 : Int) ≤ (digitsVal ds : Int) :=
  Int.ofNat_nonneg _

/-! ## Interpreter lemmas -/

/-- A line starting with 'a' or 's' whose remainder parses dispatches the
corresponding track switch. -/
theorem interpretLine_dispatch (c : Char) (s : List Char) (n : Int)
    (hc : c = 'a' ∨ c = 's') (hne : s ≠ []) (hstoi : stoi s = some n) :
    interpretLine (c :: s) = if c = 'a' then Action.audio n else Action.subtitle n := by
  have hlen : 1 < (c :: s).length := by
    have := List.length_pos.mpr hne
    simp only [List.length_cons]
    omega
  rcases hc with rfl | rfl
  · rw [interpretLine, if_neg (by intro hcon; exact absurd (List.head_eq_of_cons_eq hcon) (by decide)),
      if_pos ⟨hlen, Or.inl rfl⟩]
    simp only [List.tail_cons, hstoi, List.head?_cons]
  · rw [interpretLine, if_neg (by intro hcon; exact absurd (List.head_eq_of_cons_eq hcon) (by decide)),
      if_pos ⟨hlen, Or.inr rfl⟩]
    simp only [List.tail_cons, hstoi, List.head?_cons]
    rw [if_neg (by decide)]
    rw [if_neg (by decide)]

/-- A line starting with 'a' or 's' whose remainder fails to parse logs
the invalid-track message. -/
theorem interpretLine_invalid (c : Char) (s : List Char)
    (hc : c = 'a' ∨ c = 's') (hne : s ≠ []) (hstoi : stoi s = none) :
    interpretLine (c :: s) = Action.invalidMsg := by
  have hlen : 1 < (c :: s).length := by
    have := List.length_pos.mpr hne
    simp only [List.length_cons]
    omega
  rcases hc with rfl | rfl
  · rw [interpretLine, if_neg (by intro hcon; exact absurd (List.head_eq_of_cons_eq hcon) (by decide)),
      if_pos ⟨hlen, Or.inl rfl⟩]
    simp only [List.tail_cons, hstoi]
  · rw [interpretLine, if_neg (by intro hcon; exact absurd (List.head_eq_of_cons_eq hcon) (by decide)),
      if_pos ⟨hlen, Or.inr rfl⟩]
    simp only [List.tail_cons, hstoi]

/-- Lines other than `"q"` never break the read loop. -/
theorem breaksLoop_eq_false {cmd : List Char} (h : interpretLine cmd ≠ Action.quitLoop) :
    breaksLoop cmd = false := by
  rw [breaksLoop]
  cases hi : interpretLine cmd
  · exact absurd hi h
  all_goals rfl

/-- The read loop keeps going after any line that does not break it. -/
theorem runInput_cons_of_not_quit (cmd : List Char) (rest : List (List Char))
    (h : interpretLine cmd ≠ Action.quitLoop) :
    runInput (cmd :: rest) = lineEvents cmd ++ runInput rest := by
  rw [runInput, breaksLoop_eq_false h]
  simp

/-- Characterization of the Track Inspector's per-track log lines: a
language line appears exactly for the in-range indices whose tag list is
present and carries a language code. -/
theorem mem_listTracks (kind : String) (count : Int)
    (tags : Int → Option (Option String)) (i : Int) (lang : String) :
    TrackLog.trackLang kind i lang ∈ listTracks kind count tags ↔
      0 ≤ i ∧ i < count ∧ tags i = some (some lang) := by
  unfold listTracks
  simp only [List.mem_filterMap, List.mem_range]
  constructor
  · rintro ⟨j, hj, hmatch⟩
    rcases htj : tags (j : Int) with _ | _ | lg
    · rw [htj] at hmatch
      cases hmatch
    · rw [htj] at hmatch
      cases hmatch
    · rw [htj] at hmatch
      simp only [Option.some.injEq, TrackLog.trackLang.injEq] at hmatch
      obtain ⟨-, hij, hlg⟩ := hmatch
      subst hlg
      refine ⟨by omega, by omega, ?_⟩
      rw [← hij]
      exact htj
  · rintro ⟨h0, hc, htags⟩
    refine ⟨i.toNat, by omega, ?_⟩
    have hcast : ((i.toNat : Nat) : Int) = i := Int.toNat_of_nonneg h0
    rw [hcast, htags]

/-! ## The claims -/

/-- **C1** (amended): for every input line `a<N>` or `s<N>` with N a
non-negative decimal integer not exceeding `INT_MAX` (2147483647), the
Command Interpreter invokes the corresponding track-switch operation
(`setAudio` for 'a', `setSubtitle` for 's') exactly once with value N, and
does not terminate its read loop.  (For larger N, `std::stoi` throws
`out_of_range`, which the code catches: see the counterexample.) -/
theorem C1_trackCommandDispatch (c : Char) (ds : List Char) (rest : List (List Char))
    (hc : c = 'a' ∨ c = 's') (hne : ds ≠ [])
    (hds : ∀ d ∈ ds, d.isDigit = true)
    (hr : (digitsVal ds : Int) ≤ intMax) :
    interpretLine (c :: ds) =
      (if c = 'a' then Action.audio (digitsVal ds) else Action.subtitle (digitsVal ds)) ∧
    runInput ((c :: ds) :: rest) =
      (if c = 'a' then Event.setAudio (digitsVal ds) else Event.setSubtitle (digitsVal ds))
        :: runInput rest := by
  have hstoi : stoi ds = some ((digitsVal ds : Int)) := by
    have h0 := stoi_signed [] ds [] 1 (Or.inl ⟨rfl, rfl⟩) hne hds
      (fun d hd => by simp at hd)
    rw [List.nil_append, List.append_nil, one_mul] at h0
    have hmin : intMin = -2147483648 := rfl
    have hmax : intMax = 2147483647 := rfl
    have hv := digitsVal_cast_nonneg ds
    rw [h0, if_neg]
    omega
  have hi := interpretLine_dispatch c ds (digitsVal ds) hc hne hstoi
  refine ⟨hi, ?_⟩
  have hnq : interpretLine (c :: ds) ≠ Action.quitLoop := by
    rw [hi]
    rcases hc with rfl | rfl <;> simp
  rw [runInput_cons_of_not_quit _ _ hnq, lineEvents, hi]
  rcases hc with rfl | rfl
  · rw [if_pos rfl, if_pos rfl]
    rfl
  · rw [if_neg (by decide), if_neg (by decide)]
    rfl

/-- **C1** witness: the line `a2` switches to audio track 2 and the loop
goes on to process the following line. -/
theorem C1_trackCommandDispatch_witness :
    runInput [['a', '2'], ['q']] = [Event.setAudio 2, Event.logShutdown, Event.mainLoopQuit] := by
  have h := (C1_trackCommandDispatch 'a' ['2'] [['q']] (Or.inl rfl) (by decide)
    (by decide) (by decide)).2
  rw [h]
  decide

/-- **C1** counterexample: the line `a2147483648` is of the form `a<N>`
with N a non-negative decimal integer, yet the interpreter performs no
track switch at all — `std::stoi` throws `out_of_range` (N exceeds
`INT_MAX`), the `catch` prints "Invalid track number", and the original
claim's universally quantified dispatch fails. -/
theorem C1_counterexample :
    (∀ d ∈ ['2', '1', '4', '7', '4', '8', '3', '6', '4', '8'], d.isDigit = true) ∧
    digitsVal ['2', '1', '4', '7', '4', '8', '3', '6', '4', '8'] = 2147483648 ∧
    interpretLine ('a' :: ['2', '1', '4', '7', '4', '8', '3', '6', '4', '8']) =
      Action.invalidMsg ∧
    runInput [('a' :: ['2', '1', '4', '7', '4', '8', '3', '6', '4', '8'])] =
      [Event.logInvalid] := by
  refine ⟨by decide, by decide, by decide, by decide⟩

/-- **C2** (amended): a line that is neither `"q"` nor of the documented
pattern `[a|s]<digits>` never terminates the read loop, and the loop
still processes subsequent lines; however, an invalid-command message is
logged only when the line has length > 1, starts with 'a' or 's', and its
remainder fails `std::stoi`; every other non-matching line is silently
ignored. -/
theorem C2_invalidLineHandling (cmd : List Char) (rest : List (List Char))
    (hq : cmd ≠ ['q']) (_hp : ¬ specTrackPattern cmd) :
    breaksLoop cmd = false ∧
    Event.mainLoopQuit ∉ lineEvents cmd ∧
    runInput (cmd :: rest) = lineEvents cmd ++ runInput rest ∧
    (lineEvents cmd = [Event.logInvalid] ↔
      1 < cmd.length ∧ (cmd.head? = some 'a' ∨ cmd.head? = some 's') ∧
        stoi cmd.tail = none) := by
  have hnq : interpretLine cmd ≠ Action.quitLoop := by
    rw [interpretLine, if_neg hq]
    split
    · split
      · split <;> simp
      · simp
    · simp
  refine ⟨breaksLoop_eq_false hnq, ?_, runInput_cons_of_not_quit cmd rest hnq, ?_⟩
  · rw [lineEvents]
    cases hi : interpretLine cmd
    · exact absurd hi hnq
    all_goals simp
  · by_cases hcond : 1 < cmd.length ∧ (cmd.head? = some 'a' ∨ cmd.head? = some 's')
    · cases hs : stoi cmd.tail with
      | none =>
        have hi : interpretLine cmd = Action.invalidMsg := by
          rw [interpretLine, if_neg hq, if_pos hcond, hs]
        exact ⟨fun _ => ⟨hcond.1, hcond.2, rfl⟩, fun _ => by rw [lineEvents, hi]⟩
      | some n =>
        have hi : interpretLine cmd =
            if cmd.head? = some 'a' then Action.audio n else Action.subtitle n := by
          rw [interpretLine, if_neg hq, if_pos hcond, hs]
        have hev' : lineEvents cmd =
            if cmd.head? = some 'a' then [Event.setAudio n] else [Event.setSubtitle n] := by
          by_cases hh : cmd.head? = some 'a'
          · rw [lineEvents, hi, if_pos hh, if_pos hh]
          · rw [lineEvents, hi, if_neg hh, if_neg hh]
        constructor
        · intro hev
          rw [hev'] at hev
          split at hev <;> simp at hev
        · rintro ⟨-, -, hs'⟩
          cases hs'
    · have hi : interpretLine cmd = Action.silent := by
        rw [interpretLine, if_neg hq, if_neg hcond]
      constructor
      · intro hev
        rw [lineEvents, hi] at hev
        simp at hev
      · rintro ⟨h1, h2, -⟩
        exact absurd ⟨h1, h2⟩ hcond

/-- **C2** witness: the non-matching line `xyz` does not break the loop,
produces no loop-quit, lets the next line be processed, and — not being an
'a'/'s'-prefixed parse failure — logs nothing. -/
theorem C2_invalidLineHandling_witness :
    breaksLoop ['x', 'y', 'z'] = false ∧
    Event.mainLoopQuit ∉ lineEvents ['x', 'y', 'z'] ∧
    runInput (['x', 'y', 'z'] :: [['a', '1']]) =
      lineEvents ['x', 'y', 'z'] ++ runInput [['a', '1']] ∧
    (lineEvents ['x', 'y', 'z'] = [Event.logInvalid] ↔
      1 < (['x', 'y', 'z'] : List Char).length ∧
        ((['x', 'y', 'z'] : List Char).head? = some 'a' ∨
          (['x', 'y', 'z'] : List Char).head? = some 's') ∧
        stoi (['x', 'y', 'z'] : List Char).tail = none) :=
  C2_invalidLineHandling ['x', 'y', 'z'] [['a', '1']] (by decide) (by decide)

/-- **C2** counterexample: on the non-matching line `xyz` the interpreter
logs nothing at all (in particular no invalid-command message), refuting
the claim that every such line is logged; the loop does continue and the
following valid command `a1` is still dispatched. -/
theorem C2_counterexample :
    lineEvents ['x', 'y', 'z'] = [] ∧
    Event.logInvalid ∉ runInput [['x', 'y', 'z'], ['a', '1']] ∧
    runInput [['x', 'y', 'z'], ['a', '1']] = [Event.setAudio 1] := by
  refine ⟨by decide, by decide, by decide⟩

/-- **C3**: the exact line `q` logs the shutdown message, requests
event-loop termination, and exits the read loop without processing any
further input lines. -/
theorem C3_quitCommand (rest : List (List Char)) :
    interpretLine ['q'] = Action.quitLoop ∧
    runInput (['q'] :: rest) = [Event.logShutdown, Event.mainLoopQuit] :=
  ⟨rfl, rfl⟩

/-- **C10** (amended): the interpreter accepts strictly more than the
documented `[a|s]<digits>` pattern: any line of length > 1 starting with
'a' or 's' whose remainder begins with an optionally-signed decimal
integer (fitting in a 32-bit `int`) followed by arbitrary non-digit-led
trailing characters dispatches the corresponding track switch with the
parsed — possibly negative — value instead of being rejected.  (A leading
integer outside `int` range is instead rejected: see the
counterexample.) -/
theorem C10_lenientDispatch (c : Char) (sgn ds t : List Char) (rest : List (List Char))
    (n : Int) (hc : c = 'a' ∨ c = 's')
    (hsgn : (sgn = [] ∨ sgn = ['+']) ∨ sgn = ['-'])
    (hne : ds ≠ []) (hds : ∀ d ∈ ds, d.isDigit = true)
    (ht : ∀ d, t.head? = some d → d.isDigit = false)
    (hval : n = if sgn = ['-'] then -(digitsVal ds : Int) else (digitsVal ds : Int))
    (hlo : intMin ≤ n) (hhi : n ≤ intMax) :
    runInput ((c :: (sgn ++ ds ++ t)) :: rest) =
      (if c = 'a' then Event.setAudio n else Event.setSubtitle n) :: runInput rest := by
  have hsne : sgn ++ ds ++ t ≠ [] := by
    obtain ⟨d, ds', rfl⟩ := List.exists_cons_of_ne_nil hne
    rcases hsgn with (rfl | rfl) | rfl <;> simp
  have hmin : intMin = -2147483648 := rfl
  have hmax : intMax = 2147483647 := rfl
  have hv := digitsVal_cast_nonneg ds
  have hstoi : stoi (sgn ++ ds ++ t) = some n := by
    rcases hsgn with (rfl | rfl) | rfl
    · rw [if_neg (by decide : ¬ ([] : List Char) = ['-'])] at hval
      have h0 := stoi_signed [] ds t 1 (Or.inl ⟨rfl, rfl⟩) hne hds ht
      rw [one_mul] at h0
      rw [h0, if_neg]
      · rw [hval]
      · omega
    · rw [if_neg (by decide : ¬ (['+'] : List Char) = ['-'])] at hval
      have h0 := stoi_signed ['+'] ds t 1 (Or.inr (Or.inl ⟨rfl, rfl⟩)) hne hds ht
      rw [one_mul] at h0
      rw [h0, if_neg]
      · rw [hval]
      · omega
    · rw [if_pos rfl] at hval
      have h0 := stoi_signed ['-'] ds t (-1) (Or.inr (Or.inr ⟨rfl, rfl⟩)) hne hds ht
      rw [neg_one_mul] at h0
      rw [h0, if_neg]
      · rw [hval]
      · omega
  have hi := interpretLine_dispatch c (sgn ++ ds ++ t) n hc hsne hstoi
  have hnq : interpretLine (c :: (sgn ++ ds ++ t)) ≠ Action.quitLoop := by
    rw [hi]
    rcases hc with rfl | rfl <;> simp
  rw [runInput_cons_of_not_quit _ _ hnq, lineEvents, hi]
  rcases hc with rfl | rfl
  · rw [if_pos rfl, if_pos rfl]
    rfl
  · rw [if_neg (by decide), if_neg (by decide)]
    rfl

/-- **C10** witness: `a-3` is outside the documented pattern, yet the
interpreter switches to audio track -3; the following line is still
processed. -/
theorem C10_lenientDispatch_witness :
    ¬ specTrackPattern ('a' :: (['-'] ++ ['3'] ++ [])) ∧
    runInput (('a' :: (['-'] ++ ['3'] ++ [])) :: [['q']]) =
      Event.setAudio (-(3 : Int)) :: runInput [['q']] := by
  refine ⟨by decide, ?_⟩
  have h := C10_lenientDispatch 'a' ['-'] ['3'] [] [['q']] (-3) (Or.inl rfl)
    (Or.inr rfl) (by decide) (by decide) (fun d hd => by simp at hd)
    (by decide) (by decide) (by decide)
  rw [h]
  decide

/-- **C10** counterexample: `a-2147483649` has a remainder beginning with
an optionally-signed decimal integer followed by (empty) trailing
characters, so the claim as stated requires a dispatch with value
-2147483649; instead `std::stoi` throws `out_of_range` and the code logs
"Invalid track number" without any track switch. -/
theorem C10_counterexample :
    interpretLine ('a' :: ['-', '2', '1', '4', '7', '4', '8', '3', '6', '4', '9']) =
      Action.invalidMsg ∧
    runInput [('a' :: ['-', '2', '1', '4', '7', '4', '8', '3', '6', '4', '9'])] =
      [Event.logInvalid] := by
  refine ⟨by decide, by decide⟩

/-- **C4**: the Event Bridge dispatches by notification kind — an Error
notification logs the message plus diagnostic detail (with fallbacks for
null strings) and requests event-loop termination; End-of-stream logs and
requests termination; State-changed logs the old and new state names only
when the originating object is the owned pipeline and never requests
termination; all other kinds are ignored.  The event loop accordingly
stops at Error/EOS and keeps dispatching across the other kinds. -/
theorem C4_busDispatch :
    (∀ e d, handleBusMessage (.error e d) =
      { logs := [.errorLog (e.getD "Unknown error") (d.getD "No debug info")]
        quitRequested := true
        ret := true }) ∧
    handleBusMessage .eos = { logs := [.eosLog], quitRequested := true, ret := true } ∧
    (∀ old current pending, handleBusMessage (.stateChanged true old current pending) =
      { logs := [.stateLog (stateGetName old) (stateGetName current)]
        quitRequested := false
        ret := true }) ∧
    (∀ old current pending, handleBusMessage (.stateChanged false old current pending) =
      { logs := [], quitRequested := false, ret := true }) ∧
    handleBusMessage .other = { logs := [], quitRequested := false, ret := true } ∧
    (∀ e d rest, eventLoopRun (.error e d :: rest) =
      [.errorLog (e.getD "Unknown error") (d.getD "No debug info")]) ∧
    (∀ rest, eventLoopRun (.eos :: rest) = [.eosLog]) ∧
    (∀ src old current pending rest,
      eventLoopRun (.stateChanged src old current pending :: rest) =
        (handleBusMessage (.stateChanged src old current pending)).logs
          ++ eventLoopRun rest) ∧
    (∀ rest, eventLoopRun (.other :: rest) = eventLoopRun rest) :=
  ⟨fun _ _ => rfl, rfl, fun _ _ _ => rfl, fun _ _ _ => rfl, rfl,
    fun _ _ _ => rfl, fun _ => rfl, fun _ _ _ _ _ => rfl, fun _ => rfl⟩

/-- **C5**: the process exit code is 1 when the stream-URL argument is
missing (`argc < 2`), 2 when pipeline construction fails, and 0 on normal
exit; on every path that constructs the player, teardown (`cleanup`, via
the destructor) is the last action, and on the successful path the full
action sequence runs the event loop and joins the interpreter before
teardown. -/
theorem C5_exitCodes (argc : Nat) (playbinOk : Bool) (msgs : List BusMessage) :
    (mainRun argc playbinOk msgs).exitCode =
      (if argc < 2 then 1 else if playbinOk then 0 else 2) ∧
    (mainRun argc false msgs).actions =
      (if argc < 2 then [.usageError]
        else [.constructPlayer, .gstInit, .createPipelineFail, .logFatal, .cleanupRun]) ∧
    (mainRun argc true msgs).actions =
      (if argc < 2 then [.usageError]
        else [.constructPlayer, .gstInit, .createPipelineOk, .setStatePlaying,
          .spawnTrackInspector, .spawnCommandInterpreter, .runEventLoop,
          .joinCommandInterpreter, .cleanupRun]) := by
  by_cases h2 : argc < 2
  · cases playbinOk <;> simp [mainRun, h2, setupPlayer, startPlayback]
  · cases playbinOk <;> simp [mainRun, h2, setupPlayer, startPlayback]

/-- **C6**: if pipeline construction fails, the process exits with code 2
without spawning the Track Inspector or the Command Interpreter and
without attempting playback (no PLAYING transition, no event loop). -/
theorem C6_setupFailureNoThreads (argc : Nat) (msgs : List BusMessage)
    (h2 : 2 ≤ argc) :
    (mainRun argc false msgs).exitCode = 2 ∧
    MainAction.spawnTrackInspector ∉ (mainRun argc false msgs).actions ∧
    MainAction.spawnCommandInterpreter ∉ (mainRun argc false msgs).actions ∧
    MainAction.setStatePlaying ∉ (mainRun argc false msgs).actions ∧
    MainAction.runEventLoop ∉ (mainRun argc false msgs).actions := by
  have h2' : ¬ argc < 2 := by omega
  rw [mainRun, if_neg h2']
  simp [setupPlayer]

/-- **C6** witness: with `argc = 2` and no bus traffic, the failed-setup
run exits 2 and performs none of the playback actions. -/
theorem C6_setupFailureNoThreads_witness :
    2 ≤ 2 ∧
    ((mainRun 2 false []).exitCode = 2 ∧
      MainAction.spawnTrackInspector ∉ (mainRun 2 false []).actions ∧
      MainAction.spawnCommandInterpreter ∉ (mainRun 2 false []).actions ∧
      MainAction.setStatePlaying ∉ (mainRun 2 false []).actions ∧
      MainAction.runEventLoop ∉ (mainRun 2 false []).actions) :=
  ⟨by decide, C6_setupFailureNoThreads 2 [] (by decide)⟩

/-- **C7**: an asynchronous pipeline error does not change the exit code —
the Event Bridge requests event-loop termination on the error, and the
process still exits 0 after teardown, exactly as it does on a normal
end-of-stream. -/
theorem C7_errorSameExitCode (argc : Nat) (msgs : List BusMessage)
    (e d : Option String) (h2 : 2 ≤ argc) :
    (handleBusMessage (.error e d)).quitRequested = true ∧
    (mainRun argc true (.error e d :: msgs)).exitCode = 0 ∧
    (mainRun argc true (.error e d :: msgs)).exitCode =
      (mainRun argc true [.eos]).exitCode := by
  have h2' : ¬ argc < 2 := by omega
  rw [mainRun, if_neg h2', mainRun, if_neg h2']
  simp [setupPlayer, handleBusMessage]

/-- **C7** witness: at `argc = 2`, a run whose first bus message is an
error (with null message and debug strings) exits 0, like the EOS run. -/
theorem C7_errorSameExitCode_witness :
    2 ≤ 2 ∧
    ((handleBusMessage (.error none none)).quitRequested = true ∧
      (mainRun 2 true [.error none none]).exitCode = 0 ∧
      (mainRun 2 true [.error none none]).exitCode =
        (mainRun 2 true [.eos]).exitCode) := by
  have h := C7_errorSameExitCode 2 [] none none (by decide)
  exact ⟨by decide, h⟩

/-- **C8**: `cleanup` is idempotent — a second call changes nothing and
releases nothing again; each live resource is released exactly once by the
first call (both handles are dead afterwards); and calling it when nothing
was ever constructed (e.g. `configure` never succeeded) is a harmless
no-op. -/
theorem C8_cleanupIdempotent (s : PlayerRes) (pr mr : Nat) :
    cleanup (cleanup s) = cleanup s ∧
    (cleanup s).pipelineUnrefs =
      s.pipelineUnrefs + (if s.pipelineAlive then 1 else 0) ∧
    (cleanup s).mainloopUnrefs =
      s.mainloopUnrefs + (if s.mainloopAlive then 1 else 0) ∧
    (cleanup s).pipelineAlive = false ∧
    (cleanup s).mainloopAlive = false ∧
    cleanup
      { pipelineAlive := false, mainloopAlive := false, mainloopRunning := false
        pipelineUnrefs := pr, mainloopUnrefs := mr } =
      { pipelineAlive := false, mainloopAlive := false, mainloopRunning := false
        pipelineUnrefs := pr, mainloopUnrefs := mr } := by
  obtain ⟨pa, ma, mrun, pu, mu⟩ := s
  cases pa <;> cases ma <;> simp [cleanup]

/-- **C9**: the Track Inspector sleeps a fixed 3-second warm-up interval;
if the pipeline is absent when it wakes it is a silent no-op; otherwise it
logs the video, audio and subtitle counts and then, for the audio and
subtitle kinds, iterates indices in `[0, count)` logging each track's
language exactly when a language tag is present. -/
theorem C9_trackInspector (nVideo nAudio nText : Int)
    (audioTags textTags : Int → Option (Option String)) (i : Int) (lang : String) :
    discoveryDelaySeconds = 3 ∧
    showStreamDetails false nVideo nAudio nText audioTags textTags = [] ∧
    showStreamDetails true nVideo nAudio nText audioTags textTags =
      [.videoCount nVideo, .audioCount nAudio, .subtitleCount nText]
        ++ listTracks "Audio" nAudio audioTags
        ++ listTracks "Subtitle" nText textTags ∧
    (TrackLog.trackLang "Audio" i lang ∈ listTracks "Audio" nAudio audioTags ↔
      0 ≤ i ∧ i < nAudio ∧ audioTags i = some (some lang)) ∧
    (TrackLog.trackLang "Subtitle" i lang ∈ listTracks "Subtitle" nText textTags ↔
      0 ≤ i ∧ i < nText ∧ textTags i = some (some lang)) := by
  refine ⟨rfl, rfl, rfl, mem_listTracks _ _ _ _ _, mem_listTracks _ _ _ _ _⟩

end VideoPlayer
